import Mathlib

/-!
Verification of the Campus Data Workflow Automation System bootstrap
(`main.py`): a FastAPI application that, at module load, runs
`models.Base.metadata.create_all(bind=engine)` and then serves a single
`GET /` health-check route returning a fixed three-key JSON mapping.
-/

namespace Campus

/-- A declared ORM table: its name together with the schema text it is created with. -/
structure Table where
  name : String
  schemaSql : String
deriving DecidableEq, Repr

/-- State of the relational database: the tables present, in creation order. -/
abbrev DBState := List Table

/-- Modelled from the spec: the configured database engine handle.  `database/db.py`
is not under src/; the spec describes the engine as a handle to a SQLite database
file, constructed once at module load and imported by `main.py`. -/
structure Engine where
  url : String
deriving DecidableEq, Repr

/-- Modelled from the spec: the single module-level engine object that `main.py`
imports from `database.db`. -/
def engine : Engine := { url := "sqlite:///campus.db" }

/-- Engines constructed while the module loads: exactly the one `engine`. -/
def enginesConstructedAtModuleLoad : List Engine := [engine]

/-- The `bind=engine` argument passed to `create_all` at `main.py` line 7. -/
def schemaCreationBind : Engine := engine

/-- Error raised when the database connection is unreachable. -/
inductive DBError
  | connectionUnreachable
deriving DecidableEq, Repr

/-- Test whether the database already holds a table with the given name. -/
def hasTableNamed (db : DBState) (n : String) : Bool :=
  db.any (fun u => u.name = n)

/-- One step of schema creation: create table `t` unless a table with its name
already exists, in which case the database is left untouched. -/
def createTableIfAbsent (db : DBState) (t : Table) : DBState :=
  if hasTableNamed db t.name then db else db ++ [t]

/-- Pure table-creation core of `create_all`: create each declared table if absent. -/
def createAllTables (declared : List Table) (db : DBState) : DBState :=
  declared.foldl createTableIfAbsent db

/-- Modelled from the spec: `models.Base.metadata.create_all(bind=engine)`.  The
model declarations (`database/models.py`) are not under src/; the spec describes
the call as an idempotent create-all-tables-if-absent operation that fails only
when the underlying database connection is unreachable. -/
def create_all (declared : List Table) (bind : Engine)
    (reachable : Engine → Bool) (db : DBState) : Except DBError DBState :=
  if reachable bind then Except.ok (createAllTables declared db)
  else Except.error DBError.connectionUnreachable

/-- An HTTP route registered on the application: method and path. -/
structure Route where
  method : String
  path : String
deriving DecidableEq, Repr

/-- The FastAPI application object: metadata plus the registered routes. -/
structure App where
  title : String
  version : String
  routes : List Route
deriving DecidableEq, Repr

/-- The application object of `main.py`: `FastAPI(title=..., version=...)` with the
single route registered by the `@app.get` decorator. -/
def app : App :=
  { title := "Campus Data Workflow Automation System"
    version := "0.1.0"
    routes := [{ method := "GET", path := "/" }] }

/-- An HTTP request: method, path, headers and body. -/
structure Request where
  method : String
  path : String
  headers : List (String × String)
  body : String
deriving DecidableEq, Repr

/-- An HTTP response: status code and a JSON-object body as key-value pairs. -/
structure Response where
  statusCode : Nat
  body : List (String × String)
deriving DecidableEq, Repr

/-- Return value of the `root` handler in `main.py`: the literal three-key mapping. -/
def root : List (String × String) :=
  [("status", "Backend running"), ("module", "Foundation"), ("database", "SQLite")]

/-- Body FastAPI serves for a request matching no registered route. -/
def notFoundBody : List (String × String) := [("detail", "Not Found")]

/-- FastAPI request dispatch over the registered routes: the only registered
handler is `root`, whose returned mapping is serialized with status 200; any
request matching no route gets a 404. -/
def dispatch (a : App) (req : Request) : Response :=
  if ({ method := req.method, path := req.path } : Route) ∈ a.routes then
    { statusCode := 200, body := root }
  else
    { statusCode := 404, body := notFoundBody }

/-- Running server state: the application object and the database contents. -/
structure ServerState where
  app : App
  db : DBState
deriving DecidableEq, Repr

/-- One step of the module toplevel of `main.py`. -/
inductive InitEvent
  | createTables
  | constructApp
  | registerRoute (method path : String)
deriving DecidableEq, Repr

/-- Order of the module toplevel of `main.py` (lines 7, 9 and 15). -/
def moduleInitTrace : List InitEvent :=
  [InitEvent.createTables, InitEvent.constructApp, InitEvent.registerRoute "GET" "/"]

/-- Process startup: run schema creation bound to `engine`; only if it succeeds is
the application state constructed and served, otherwise the error propagates. -/
def startup (declared : List Table) (reachable : Engine → Bool)
    (db0 : DBState) : Except DBError ServerState :=
  match create_all declared schemaCreationBind reachable db0 with
  | Except.error e => Except.error e
  | Except.ok db1 => Except.ok { app := app, db := db1 }

/-- Handle one HTTP request: the `root` handler body only returns a literal, so
the server state passes through unchanged and only a response is produced. -/
def handle (s : ServerState) (req : Request) : ServerState × Response :=
  (s, dispatch s.app req)

/-- Serve a sequence of requests, threading the server state through `handle`. -/
def serveAll (s : ServerState) (reqs : List Request) : ServerState :=
  reqs.foldl (fun a r => (handle a r).1) s

/-- Command-line flags read by the program: none appear in the source. -/
def cliFlagsRead : List String := []

/-- Environment variables read by the program: `main.py` reads none, and the spec
states none are read anywhere. -/
def envVarsRead : List String := []

/-! Helper lemmas about the table-creation fold. -/

/-- Membership in the database is preserved by one creation step. -/
theorem mem_createTableIfAbsent {db : DBState} {u : Table} (t : Table) (h : u ∈ db) :
    u ∈ createTableIfAbsent db t := by
  unfold createTableIfAbsent
  split
  · exact h
  · exact List.mem_append_left _ h

/-- A table name present in the database is still present after one creation step. -/
theorem hasTableNamed_createTableIfAbsent {db : DBState} {n : String} (t : Table)
    (h : hasTableNamed db n = true) :
    hasTableNamed (createTableIfAbsent db t) n = true := by
  unfold createTableIfAbsent
  split
  · exact h
  · unfold hasTableNamed at h ⊢
    simp only [List.any_append, h, Bool.true_or]

/-- After one creation step for `t`, a table named `t.name` is present. -/
theorem hasTableNamed_createTableIfAbsent_self (db : DBState) (t : Table) :
    hasTableNamed (createTableIfAbsent db t) t.name = true := by
  unfold createTableIfAbsent
  split
  case isTrue h => exact h
  case isFalse h =>
    unfold hasTableNamed
    simp

/-- Membership in the database is preserved by the whole creation fold. -/
theorem mem_createAllTables (declared : List Table) {db : DBState} {u : Table}
    (h : u ∈ db) : u ∈ createAllTables declared db := by
  induction declared generalizing db with
  | nil => exact h
  | cons hd tl ih => exact ih (mem_createTableIfAbsent hd h)

/-- A table name present in the database is still present after the creation fold. -/
theorem hasTableNamed_createAllTables_mono (declared : List Table) {db : DBState}
    {n : String} (h : hasTableNamed db n = true) :
    hasTableNamed (createAllTables declared db) n = true := by
  induction declared generalizing db with
  | nil => exact h
  | cons hd tl ih => exact ih (hasTableNamed_createTableIfAbsent hd h)

/-- After the creation fold, every declared table name is present. -/
theorem hasTableNamed_createAllTables {declared : List Table} (db : DBState)
    {t : Table} (h : t ∈ declared) :
    hasTableNamed (createAllTables declared db) t.name = true := by
  induction declared generalizing db with
  | nil => cases h
  | cons hd tl ih =>
    rcases List.mem_cons.mp h with h1 | h2
    · subst h1
      exact hasTableNamed_createAllTables_mono tl
        (hasTableNamed_createTableIfAbsent_self db t)
    · show hasTableNamed (createAllTables tl (createTableIfAbsent db hd)) t.name = true
      exact ih (createTableIfAbsent db hd) h2

/-- If every declared table name is already present, the creation fold is the
identity on the database. -/
theorem createAllTables_of_all_present {declared : List Table} {db : DBState}
    (h : ∀ t ∈ declared, hasTableNamed db t.name = true) :
    createAllTables declared db = db := by
  induction declared with
  | nil => rfl
  | cons hd tl ih =>
    have hstep : createTableIfAbsent db hd = db := by
      unfold createTableIfAbsent
      rw [if_pos (h hd (List.mem_cons_self hd tl))]
    show createAllTables tl (createTableIfAbsent db hd) = db
    rw [hstep]
    exact ih (fun t ht => h t (List.mem_cons_of_mem hd ht))

/-- The pure creation fold is idempotent. -/
theorem createAllTables_idem (declared : List Table) (db : DBState) :
    createAllTables declared (createAllTables declared db) =
      createAllTables declared db :=
  createAllTables_of_all_present
    (fun _ ht => hasTableNamed_createAllTables db ht)

/-- The creation fold only appends: the original database is an initial segment. -/
theorem createAllTables_append (declared : List Table) (db : DBState) :
    ∃ rest, createAllTables declared db = db ++ rest := by
  induction declared generalizing db with
  | nil => exact ⟨[], (List.append_nil db).symm⟩
  | cons hd tl ih =>
    show ∃ rest, createAllTables tl (createTableIfAbsent db hd) = db ++ rest
    unfold createTableIfAbsent
    split
    · exact ih db
    · rcases ih (db ++ [hd]) with ⟨r, hr⟩
      exact ⟨[hd] ++ r, by rw [hr, List.append_assoc]⟩

/-- A name absent from the database and different from the created table's name is
still absent after one creation step. -/
theorem hasTableNamed_createTableIfAbsent_ne {db : DBState} {n : String} {t : Table}
    (hne : t.name ≠ n) (h : hasTableNamed db n = false) :
    hasTableNamed (createTableIfAbsent db t) n = false := by
  unfold createTableIfAbsent
  split
  · exact h
  · unfold hasTableNamed at h ⊢
    simp only [List.any_append, h, Bool.false_or, List.any_cons, List.any_nil,
      Bool.or_false, decide_eq_false_iff_not]
    exact hne

/-- With distinct declared names, every declared table absent from the database is
itself created by the fold. -/
theorem mem_createAllTables_of_absent {declared : List Table}
    (hnd : (declared.map Table.name).Nodup) {db : DBState} {t : Table}
    (ht : t ∈ declared) (habs : hasTableNamed db t.name = false) :
    t ∈ createAllTables declared db := by
  induction declared generalizing db with
  | nil => cases ht
  | cons hd tl ih =>
    rcases List.mem_cons.mp ht with h1 | h2
    · subst h1
      have hstep : createTableIfAbsent db t = db ++ [t] := by
        unfold createTableIfAbsent
        rw [if_neg (by simp [habs])]
      show t ∈ createAllTables tl (createTableIfAbsent db t)
      rw [hstep]
      exact mem_createAllTables tl (List.mem_append_right db (List.mem_singleton_self t))
    · rw [List.map_cons, List.nodup_cons] at hnd
      have hne : hd.name ≠ t.name := by
        intro hEq
        exact hnd.1 (hEq ▸ List.mem_map_of_mem Table.name h2)
      show t ∈ createAllTables tl (createTableIfAbsent db hd)
      exact ih hnd.2 h2 (hasTableNamed_createTableIfAbsent_ne hne habs)

/-- Serving requests never changes the server state. -/
theorem serveAll_fixed (s : ServerState) (reqs : List Request) :
    serveAll s reqs = s := by
  induction reqs with
  | nil => rfl
  | cons hd tl ih => exact ih

/-- A successful startup serves exactly the database produced by schema creation. -/
theorem startup_ok_elim {declared : List Table} {reachable : Engine → Bool}
    {db0 : DBState} {st : ServerState}
    (h : startup declared reachable db0 = Except.ok st) :
    st.db = createAllTables declared db0 := by
  unfold startup create_all schemaCreationBind at h
  by_cases hr : reachable engine = true
  · rw [if_pos hr] at h
    injection h with h2
    rw [← h2]
  · rw [if_neg hr] at h
    exact Except.noConfusion h

/-! Claim theorems. -/

/-- C1: every request to `GET /`, whatever its headers and body and whatever the
database contents, is answered with HTTP status 200 and exactly the three-key
JSON mapping returned by the `root` handler. -/
theorem root_route_returns_fixed_body (headers : List (String × String))
    (body : String) (db : DBState) :
    (handle { app := app, db := db }
        { method := "GET", path := "/", headers := headers, body := body }).2 =
      { statusCode := 200,
        body := [("status", "Backend running"), ("module", "Foundation"),
          ("database", "SQLite")] } := by
  rfl

/-- C2: the schema-creation call is idempotent — on any database state produced by
one successful run, a second run raises no error and returns that state unchanged. -/
theorem create_all_idempotent (declared : List Table) (reachable : Engine → Bool)
    (db0 db1 : DBState)
    (h : create_all declared schemaCreationBind reachable db0 = Except.ok db1) :
    create_all declared schemaCreationBind reachable db1 = Except.ok db1 := by
  unfold create_all at h ⊢
  split at h
  case isTrue hr =>
    rw [if_pos hr]
    have h1 : createAllTables declared db0 = db1 := by
      injection h
    rw [← h1, createAllTables_idem]
  case isFalse hr =>
    exact Except.noConfusion h

/-- Witness for C2 at a concrete declared table and database. -/
theorem create_all_idempotent_witness :
    create_all [⟨"students", "s"⟩] schemaCreationBind (fun _ => true)
        [⟨"students", "s"⟩] = Except.ok [⟨"students", "s"⟩] :=
  create_all_idempotent [⟨"students", "s"⟩] (fun _ => true) [] [⟨"students", "s"⟩] rfl

/-- C3: schema creation creates every declared table that is absent from the
database, and the pre-existing tables persist unmodified as an initial segment of
the result. -/
theorem create_all_creates_missing_preserves_existing (declared : List Table)
    (db : DBState) (hnd : (declared.map Table.name).Nodup) :
    (∀ t ∈ declared, hasTableNamed db t.name = false →
      t ∈ createAllTables declared db) ∧
    ∃ rest, createAllTables declared db = db ++ rest :=
  ⟨fun _ ht habs => mem_createAllTables_of_absent hnd ht habs,
    createAllTables_append declared db⟩

/-- Witness for C3: a missing declared table is created and the existing table is
kept in place. -/
theorem create_all_creates_missing_preserves_existing_witness :
    (⟨"students", "s"⟩ : Table) ∈
        createAllTables [⟨"students", "s"⟩] [⟨"courses", "c"⟩] ∧
    ∃ rest, createAllTables [⟨"students", "s"⟩] [⟨"courses", "c"⟩] =
        [⟨"courses", "c"⟩] ++ rest := by
  have h := create_all_creates_missing_preserves_existing [⟨"students", "s"⟩]
    [⟨"courses", "c"⟩] (by decide)
  exact ⟨h.1 ⟨"students", "s"⟩ (by decide) (by decide), h.2⟩

/-- C4: startup schema creation fails exactly when the database connection is
unreachable, and in that case the error propagates unhandled through `startup`,
so no application state is ever constructed. -/
theorem startup_fails_iff_unreachable (declared : List Table)
    (reachable : Engine → Bool) (db0 : DBState) :
    ((∃ e, startup declared reachable db0 = Except.error e) ↔
      reachable engine = false) ∧
    ∀ e, create_all declared schemaCreationBind reachable db0 = Except.error e →
      startup declared reachable db0 = Except.error e := by
  constructor
  · constructor
    · rintro ⟨e, he⟩
      by_contra hne
      have hr : reachable engine = true := by
        cases hrv : reachable engine
        · exact absurd hrv hne
        · rfl
      unfold startup create_all schemaCreationBind at he
      rw [if_pos hr] at he
      exact Except.noConfusion he
    · intro hr
      refine ⟨DBError.connectionUnreachable, ?_⟩
      unfold startup create_all schemaCreationBind
      rw [if_neg (by simp [hr])]
  · intro e he
    unfold startup
    rw [he]

/-- Witness for C4: with an unreachable connection, startup returns an error. -/
theorem startup_fails_iff_unreachable_witness :
    ∃ e, startup [] (fun _ => false) [] = Except.error e :=
  (startup_fails_iff_unreachable [] (fun _ => false) []).1.mpr rfl

/-- C5: the application metadata is the constant pair fixed at construction, and
no request-handling operation ever changes the application object. -/
theorem app_metadata_fixed :
    app.title = "Campus Data Workflow Automation System" ∧
    app.version = "0.1.0" ∧
    ∀ (s : ServerState) (req : Request), (handle s req).1.app = s.app :=
  ⟨rfl, rfl, fun _ _ => rfl⟩

/-- C6: handling any request — in particular `GET /` — has no side effects: the
server state, including the application object and the database contents, is
returned unchanged, and only the HTTP response is produced.  The engine is a
module-level constant that `handle` never touches. -/
theorem root_no_side_effects (s : ServerState) (req : Request) :
    (handle s req).1 = s ∧ (handle s req).1.db = s.db ∧
    (handle s req).1.app = s.app :=
  ⟨rfl, rfl, rfl⟩

/-- C7: `GET /` is the only registered route — a request is answered 200 exactly
when it is a `GET` of path `/`, everything else getting a 404 — and the program
reads no command-line flags and no environment variables. -/
theorem single_route_no_config :
    app.routes = [{ method := "GET", path := "/" }] ∧
    cliFlagsRead = [] ∧
    envVarsRead = [] ∧
    ∀ req : Request, (dispatch app req).statusCode =
      if req.method = "GET" ∧ req.path = "/" then 200 else 404 := by
  refine ⟨rfl, rfl, rfl, fun req => ?_⟩
  unfold dispatch
  have hmem : (({ method := req.method, path := req.path } : Route) ∈ app.routes) ↔
      (req.method = "GET" ∧ req.path = "/") := by
    simp [app, Route.mk.injEq]
  by_cases h : req.method = "GET" ∧ req.path = "/"
  · rw [if_pos (hmem.mpr h), if_pos h]
  · rw [if_neg (fun hc => h (hmem.mp hc)), if_neg h]

/-- C8: exactly one engine object is created at module load, and schema creation
is bound to that single shared engine; nothing rebinds it. -/
theorem engine_single_shared :
    enginesConstructedAtModuleLoad = [engine] ∧
    enginesConstructedAtModuleLoad.length = 1 ∧
    schemaCreationBind = engine :=
  ⟨rfl, rfl, rfl⟩

/-- C9: the `root` handler is total (a total Lean function that cannot fail) and
deterministic — any two invocations, from any server states and with any request
headers and bodies, produce equal responses, namely the constant `root` mapping. -/
theorem root_total_deterministic (db1 db2 : DBState)
    (h1 h2 : List (String × String)) (b1 b2 : String) :
    (handle { app := app, db := db1 }
        { method := "GET", path := "/", headers := h1, body := b1 }).2 =
      (handle { app := app, db := db2 }
        { method := "GET", path := "/", headers := h2, body := b2 }).2 ∧
    (handle { app := app, db := db1 }
        { method := "GET", path := "/", headers := h1, body := b1 }).2.body = root :=
  ⟨rfl, rfl⟩

/-- C10: schema creation happens before serving — in the module toplevel the
`create_all` step precedes app construction, which precedes route registration,
and after a successful startup every state reachable by serving any sequence of
requests still has every declared table name present in the database. -/
theorem schema_creation_before_serving (declared : List Table)
    (reachable : Engine → Bool) (db0 : DBState) (st : ServerState)
    (h : startup declared reachable db0 = Except.ok st) :
    moduleInitTrace.indexOf InitEvent.createTables <
      moduleInitTrace.indexOf InitEvent.constructApp ∧
    moduleInitTrace.indexOf InitEvent.constructApp <
      moduleInitTrace.indexOf (InitEvent.registerRoute "GET" "/") ∧
    ∀ (reqs : List Request) (t : Table), t ∈ declared →
      hasTableNamed (serveAll st reqs).db t.name = true := by
  refine ⟨by decide, by decide, fun reqs t ht => ?_⟩
  rw [serveAll_fixed, startup_ok_elim h]
  exact hasTableNamed_createAllTables db0 ht

/-- Witness for C10 at a concrete declared table, reachable connection and empty
initial database. -/
theorem schema_creation_before_serving_witness :
    hasTableNamed (serveAll
      (ServerState.mk app (createAllTables [⟨"students", "s"⟩] [])) []).db
      "students" = true := by
  have h := schema_creation_before_serving [⟨"students", "s"⟩] (fun _ => true) []
    (ServerState.mk app (createAllTables [⟨"students", "s"⟩] [])) rfl
  exact h.2.2 [] ⟨"students", "s"⟩
    (List.mem_singleton_self (⟨"students", "s"⟩ : Table))

end Campus
